import Mathlib

/-!
Verification of the pipeline execution engine of x-cosmos-mcp.

The development shallowly embeds the Python sources:
  * `src/app/worker_task.py`   — task / result records;
  * `src/app/worker_pool.py`   — worker pool (queue, submit, result lookup,
    per-task retry loop, periodic result cleanup);
  * `src/app/pipeline.py`      — the batch coordinator and the
    model-call-with-fallback executor;
  * `src/app/utils/taxonomy.py` — the taxonomy matcher;
  * `src/optimus_v3.py`        — the LLM-candidate validity gate and its
    fallback path.

Asynchronous effects are made explicit: the environment (handler outcomes,
model replies, future resolutions, timeouts) is passed as oracle functions,
and stateful code is modelled by explicit state passing.  Machine floats that
only ever hold durations/scores are modelled by rationals.
-/

set_option maxHeartbeats 1000000

namespace XCMCP

/-- Task payloads are opaque to the pool (`Any` in the source); an abstract
token type stands in for them. -/
abbrev Payload := String

/-- The one field of `task.data` the pool itself reads:
`task.data.get("_max_retries", 3)` in `Worker.process_task`. -/
structure TaskData where
  payload : Payload
  maxRetriesOverride : Option Nat
deriving DecidableEq, Repr

/-- `WorkerTask` record (src/app/worker_task.py, lines 13-19). -/
structure WorkerTask where
  task_id : String
  task_type : String
  data : TaskData
  priority : Int
  created_at : ℚ
deriving DecidableEq, Repr

/-- `WorkerResult` record (src/app/worker_task.py, lines 22-28).  Note that
the record carries only the task's execution *duration*; it has no
publication timestamp field. -/
structure WorkerResult where
  task_id : String
  success : Bool
  result : Option Payload
  error : Option String
  execution_time : ℚ
deriving DecidableEq, Repr

/-- First-match association-list lookup, modelling Python dict access. -/
def lookupStr {α : Type} (m : List (String × α)) (k : String) : Option α :=
  (m.find? (fun p => p.1 == k)).map Prod.snd

/-- `asyncio.Queue.put` — the pool's queue (src/app/worker_pool.py line 109)
is a plain `asyncio.Queue`, whose backing store is a deque: `put` appends at
the back. -/
def queue_put (q : List (Int × WorkerTask)) (item : Int × WorkerTask) :
    List (Int × WorkerTask) :=
  q ++ [item]

/-- `asyncio.Queue.get` — pops from the front (FIFO). -/
def queue_get (q : List (Int × WorkerTask)) :
    Option ((Int × WorkerTask) × List (Int × WorkerTask)) :=
  match q with
  | [] => none
  | x :: xs => some (x, xs)

/-- State of one entry of `WorkerPool.task_futures`. -/
inductive FutureState where
  | pending
deriving DecidableEq, Repr

/-- Mutable state of `WorkerPool` (src/app/worker_pool.py, lines 98-122),
restricted to the fields the verified operations touch. -/
structure PoolState where
  running : Bool
  task_queue : List (Int × WorkerTask)
  results : List (String × WorkerResult)
  task_futures : List (String × FutureState)
  total_tasks : Nat
  completed_tasks : Nat
  failed_tasks : Nat
deriving DecidableEq, Repr

/-- `WorkerPool.submit_task` (src/app/worker_pool.py, lines 136-151).  The
uuid draw and the clock are passed in explicitly.  The running check comes
first; only afterwards are the future created, the task enqueued and the
counter incremented. -/
def submit_task (s : PoolState) (task_type : String) (data : TaskData)
    (priority : Int) (fresh_id : String) (now : ℚ) :
    PoolState × Except String String :=
  if s.running then
    let task : WorkerTask :=
      { task_id := fresh_id, task_type := task_type, data := data,
        priority := priority, created_at := now }
    let s1 : PoolState :=
      { s with
        task_futures := s.task_futures ++ [(fresh_id, FutureState.pending)],
        task_queue := queue_put s.task_queue (priority, task),
        total_tasks := s.total_tasks + 1 }
    (s1, Except.ok fresh_id)
  else
    (s, Except.error "Worker pool is not running")

/-- How the worker loop eventually resolves a pending future
(src/app/worker_pool.py, lines 208-215): `set_result` on success,
`set_exception(Exception(result.error))` on failure. -/
inductive FutureResolution where
  | success (r : WorkerResult)
  | failure (e : String)
deriving DecidableEq, Repr

/-- Possible outcomes of a `get_result` call: a returned `WorkerResult`, or
one of the three exceptions the call can raise. -/
inductive GetResultOutcome where
  | ok (r : WorkerResult)
  | unknownTask (msg : String)
  | timeoutErr
  | taskError (e : String)
deriving DecidableEq, Repr

/-- `WorkerPool.get_result` (src/app/worker_pool.py, lines 153-163): first
the results cache, then the futures map; a pending future is awaited with a
timeout, and resolves to whatever the worker loop puts into it — a returned
result on success, a raised exception on failure. -/
def get_result (s : PoolState) (task_id : String) (timesOut : Bool)
    (eventual : FutureResolution) : GetResultOutcome :=
  match lookupStr s.results task_id with
  | some r => GetResultOutcome.ok r
  | none =>
    match lookupStr s.task_futures task_id with
    | none => GetResultOutcome.unknownTask ("Task " ++ task_id ++ " not found")
    | some _ =>
      if timesOut then GetResultOutcome.timeoutErr
      else
        match eventual with
        | FutureResolution.success r => GetResultOutcome.ok r
        | FutureResolution.failure e => GetResultOutcome.taskError e

/-- Result publication in `WorkerPool._worker_loop` (lines 187-215): the
result is inserted into the cache, the stats counter is bumped, then the
future is resolved and removed from the futures map. -/
def publish_result (s : PoolState) (task_id : String) (r : WorkerResult) :
    PoolState :=
  let s1 : PoolState := { s with results := (task_id, r) :: s.results }
  let s2 : PoolState :=
    if r.success then { s1 with completed_tasks := s1.completed_tasks + 1 }
    else { s1 with failed_tasks := s1.failed_tasks + 1 }
  match lookupStr s2.task_futures task_id with
  | some _ =>
    { s2 with task_futures := s2.task_futures.filter (fun p => p.1 != task_id) }
  | none => s2

/-- One cleanup pass of `WorkerPool._result_processor`
(src/app/worker_pool.py, lines 228-236): entries with
`current_time - result.execution_time > 3600` are deleted, the rest kept. -/
def result_cleanup (current_time : ℚ) (results : List (String × WorkerResult)) :
    List (String × WorkerResult) :=
  results.filter (fun p => !(decide (current_time - p.2.execution_time > 3600)))

/-- Outcome of `Worker.process_task`. -/
inductive ProcessOutcome where
  | succeeded (v : Payload)
  | failedTask (e : String)
  | unknownError
deriving DecidableEq, Repr

/-- Observable trace of one `Worker.process_task` call: the published result,
the back-off sleeps performed (in seconds, in order), and how many times the
task handler was consulted. -/
structure ProcessTrace where
  result : ProcessOutcome
  sleeps : List Nat
  handler_calls : Nat
deriving DecidableEq, Repr

/-- The retry loop of `Worker.process_task` (src/app/worker_pool.py, lines
38-85), `for attempt in range(max_retries + 1)`.  `handler i` is the outcome
of the handler call on attempt `i` (an exception is an `Except.error`; a
missing handler registration is subsumed as the raised `ValueError`).
`remaining` is the number of loop iterations left, `max_retries + 1 - attempt`
at the top-level call; the `remaining = 0` base case is Python's unreachable
trailing `return` after the loop. -/
def process_loop (handler : Nat → Except String Payload) (max_retries : Nat) :
    Nat → Nat → ProcessTrace
  | 0, _ =>
    { result := ProcessOutcome.unknownError, sleeps := [], handler_calls := 0 }
  | remaining + 1, attempt =>
    match handler attempt with
    | Except.ok v =>
      { result := ProcessOutcome.succeeded v, sleeps := [], handler_calls := 1 }
    | Except.error e =>
      if attempt < max_retries then
        let t := process_loop handler max_retries remaining (attempt + 1)
        { result := t.result,
          sleeps := min (2 ^ attempt) 30 :: t.sleeps,
          handler_calls := t.handler_calls + 1 }
      else
        { result := ProcessOutcome.failedTask e, sleeps := [],
          handler_calls := 1 }

/-- `max_retries = task.data.get("_max_retries", 3)`
(src/app/worker_pool.py, lines 33-35). -/
def task_max_retries (t : WorkerTask) : Nat :=
  t.data.maxRetriesOverride.getD 3

/-- `Worker.process_task` (src/app/worker_pool.py, lines 28-95). -/
def process_task (handler : Nat → Except String Payload) (task : WorkerTask) :
    ProcessTrace :=
  process_loop handler (task_max_retries task) (task_max_retries task + 1) 0

/-! ### Batch coordinator (src/app/pipeline.py, `batch_process_products`) -/

/-- Per-product outcome of one batch iteration, as the coordinator observes
it.  `missing` — `get_product_details` returned no product record (the id is
skipped at submission, src/app/pipeline.py line 480).  `succeeded ok` — the
worker result was a success; `ok = false` records that one of the awaited
success-path persistence calls (`get_product_details`,
`update_product_details`, `update_product_tags`, `log_change`, lines 525-577)
then raised, which the generic exception handler at line 605 turns into a
failure increment.  `failedTask` — the worker published a failed result (or
`get_result` raised the task's error).  `timedOut` — `get_result` raised
`asyncio.TimeoutError`. -/
inductive ProductOutcome where
  | missing
  | succeeded (persist_ok : Bool)
  | failedTask (e : String)
  | timedOut
deriving DecidableEq, Repr

/-- Final bookkeeping record of one batch run, as written back by
`complete_pipeline_run` (src/app/pipeline.py, lines 629-634). -/
structure PipelineRun where
  total : Nat
  processed : Nat
  failed : Nat
  status : String
deriving DecidableEq, Repr

/-- One iteration of the result-collection loop (src/app/pipeline.py, lines
505-610) acting on the `(processed, failed)` counters.  Returns the new
counters and the successive counter values passed through during the
iteration: a success increments `processed`; if the success-path persistence
then raises, the handler at line 605 additionally increments `failed`; a
failure or timeout increments `failed`. -/
def collect_step (c : Nat × Nat) :
    ProductOutcome → (Nat × Nat) × List (Nat × Nat)
  | ProductOutcome.succeeded true =>
    ((c.1 + 1, c.2), [(c.1 + 1, c.2)])
  | ProductOutcome.succeeded false =>
    ((c.1 + 1, c.2 + 1), [(c.1 + 1, c.2), (c.1 + 1, c.2 + 1)])
  | ProductOutcome.failedTask _ => ((c.1, c.2 + 1), [(c.1, c.2 + 1)])
  | ProductOutcome.timedOut => ((c.1, c.2 + 1), [(c.1, c.2 + 1)])
  | ProductOutcome.missing => (c, [])

/-- The result-collection loop folded over the submitted products, keeping
the history of counter values. -/
def collect_loop (c : Nat × Nat) :
    List ProductOutcome → (Nat × Nat) × List (Nat × Nat)
  | [] => (c, [])
  | o :: os =>
    let s := collect_step c o
    let rest := collect_loop s.1 os
    (rest.1, s.2 ++ rest.2)

/-- Whether a product id was skipped at submission because its record was
not found (`if product:` guard, src/app/pipeline.py line 480). -/
def outcome_missing : ProductOutcome → Bool
  | ProductOutcome.missing => true
  | _ => false

/-- `MultiModelSEOManager.batch_process_products`
(src/app/pipeline.py, lines 455-634), with the per-product environment given
as one `ProductOutcome` per submitted product id.  `total` is the length of
the id list handed to `create_pipeline_run`; ids whose product record is
missing are skipped at submission; the collection loop then folds over the
submitted ones; the `finally` block finalizes the run `COMPLETED` iff the
failed counter is zero.  Returns the run record plus the counter history
(starting from `(0,0)`). -/
def batch_process_products (outcomes : List ProductOutcome) :
    PipelineRun × List (Nat × Nat) :=
  let total := outcomes.length
  let submitted := outcomes.filter (fun o => !(outcome_missing o))
  let r := collect_loop (0, 0) submitted
  ({ total := total, processed := r.1.1, failed := r.1.2,
     status := if r.1.2 = 0 then "COMPLETED" else "FAILED" },
   (0, 0) :: r.2)

/-! ### Task executor (src/app/pipeline.py, `_call_model_with_fallback`) -/

/-- `TaskType` enum (src/app/config.py, lines 9-15). -/
inductive TaskType where
  | meta_optimization
  | content_rewriting
  | keyword_analysis
  | schema_analysis
  | category_normalization
  | tag_optimization
deriving DecidableEq, Repr

/-- JSON-like values occurring in reply maps and fallback maps. -/
inductive JVal where
  | s (v : String)
  | b (v : Bool)
  | n (v : ℚ)
  | arr (vs : List String)
deriving DecidableEq, Repr

/-- A parsed model reply: a JSON object as a key/value list. -/
abbrev Reply := List (String × JVal)

/-- `field in response` for a reply map. -/
def has_field (r : Reply) (f : String) : Bool :=
  r.any (fun p => p.1 == f)

/-- The `required_fields` table of `_validate_response`
(src/app/pipeline.py, lines 318-328); `required_fields.get(task_type, [])`
yields `[]` for `category_normalization`. -/
def required_fields : TaskType → List String
  | TaskType.meta_optimization =>
    ["meta_title", "meta_description", "seo_keywords"]
  | TaskType.content_rewriting =>
    ["optimized_title", "optimized_description"]
  | TaskType.keyword_analysis =>
    ["primary_keywords", "long_tail_keywords"]
  | TaskType.tag_optimization =>
    ["optimized_tags", "removed_tags", "added_tags"]
  | TaskType.schema_analysis =>
    ["schema_compliance", "issues"]
  | TaskType.category_normalization => []

/-- `MultiModelSEOManager._validate_response`
(src/app/pipeline.py, lines 316-331). -/
def validate_response (r : Reply) (t : TaskType) : Bool :=
  (required_fields t).all (fun f => has_field r f)

/-- `MultiModelSEOManager._rule_based_fallback`
(src/app/pipeline.py, lines 333-376); the trailing `else` branch is reached
for `category_normalization`, the one enum value without its own map. -/
def rule_based_fallback : TaskType → Reply
  | TaskType.meta_optimization =>
    [("meta_title", JVal.s "Optimized Product"),
     ("meta_description",
      JVal.s "Quality product with excellent features and competitive pricing."),
     ("seo_keywords", JVal.s "product, quality, features, buy"),
     ("fallback_used", JVal.b true)]
  | TaskType.content_rewriting =>
    [("optimized_title", JVal.s "Enhanced Product Version"),
     ("optimized_description",
      JVal.s "<p>Improved product description with better features.</p>"),
     ("content_score", JVal.n (1 / 2)),
     ("improvements", JVal.arr ["Basic content optimization applied"]),
     ("fallback_used", JVal.b true)]
  | TaskType.keyword_analysis =>
    [("primary_keywords", JVal.arr ["product", "features"]),
     ("long_tail_keywords", JVal.arr ["quality product features"]),
     ("competitor_terms", JVal.arr ["similar products"]),
     ("difficulty_estimate", JVal.s "medium"),
     ("fallback_used", JVal.b true)]
  | TaskType.tag_optimization =>
    [("optimized_tags", JVal.s "product, quality, features"),
     ("removed_tags", JVal.arr ["old_irrelevant_tag"]),
     ("added_tags", JVal.arr ["new_relevant_tag"]),
     ("tag_analysis", JVal.s "Basic tag optimization applied"),
     ("fallback_used", JVal.b true)]
  | TaskType.schema_analysis =>
    [("schema_compliance", JVal.b true),
     ("issues", JVal.arr []),
     ("fallback_used", JVal.b true)]
  | TaskType.category_normalization =>
    [("error", JVal.s "No fallback defined for this task type"),
     ("fallback_used", JVal.b true)]

/-- `next_models = [m for m in self.fallback_order if m != current_model]`,
then `next_models[0]` (src/app/pipeline.py, lines 213-215). -/
def next_model (fallback_order : List String) (current : String) :
    Option String :=
  (fallback_order.filter (fun m => m != current)).head?

/-- The retry loop of `_call_model_with_fallback`
(src/app/pipeline.py, lines 195-220): `remaining` iterations are left of
`for attempt in range(max_retries)`.  `calls attempt model` is the outcome
of `_call_ollama_model` on that attempt (`Except.error` for a raised
exception).  A returned reply is kept only if it is truthy (non-empty dict)
and validates; otherwise the next model in the fallback order is tried, or
the loop breaks.  Both exhaustion and break end in the rule-based fallback. -/
def call_model_loop (calls : Nat → String → Except String Reply)
    (fallback_order : List String) (t : TaskType) :
    Nat → Nat → String → Reply
  | 0, _, _ => rule_based_fallback t
  | remaining + 1, attempt, model =>
    let kept : Option Reply :=
      match calls attempt model with
      | Except.ok r => if (!r.isEmpty) && validate_response r t then some r else none
      | Except.error _ => none
    match kept with
    | some r => r
    | none =>
      match next_model fallback_order model with
      | some m => call_model_loop calls fallback_order t remaining (attempt + 1) m
      | none => rule_based_fallback t

/-- `MultiModelSEOManager._call_model_with_fallback`
(src/app/pipeline.py, lines 186-220), default `max_retries = 3`. -/
def call_model_with_fallback (calls : Nat → String → Except String Reply)
    (fallback_order : List String) (model : String) (t : TaskType)
    (max_retries : Nat) : Reply :=
  call_model_loop calls fallback_order t max_retries 0 model

/-! ### Taxonomy matcher (src/app/utils/taxonomy.py) -/

mutual

/-- `TaxonomyNode` (src/app/utils/taxonomy.py, lines 11-16): a name, the
full `"A > B > C"` path, and the children (the dict's value view, as an
inlined list so that the nesting stays structurally recursive). -/
inductive TaxonomyNode where
  | node (name : String) (full_path : String) (children : TaxonomyForest)
deriving Repr

/-- Children collection of a `TaxonomyNode`. -/
inductive TaxonomyForest where
  | leaf
  | push (head : TaxonomyNode) (tail : TaxonomyForest)
deriving Repr

end

mutual

/-- Number of nodes of one subtree. -/
def nodeSize : TaxonomyNode → Nat
  | TaxonomyNode.node _ _ cs => 1 + forestSize cs

/-- Number of nodes of a forest. -/
def forestSize : TaxonomyForest → Nat
  | TaxonomyForest.leaf => 0
  | TaxonomyForest.push n t => nodeSize n + forestSize t

end

/-- Accessor for `node.full_path`. -/
def TaxonomyNode.fullPath : TaxonomyNode → String
  | TaxonomyNode.node _ p _ => p

/-- A forest as the list of its roots. -/
def forestList : TaxonomyForest → List TaxonomyNode
  | TaxonomyForest.leaf => []
  | TaxonomyForest.push n t => n :: forestList t

/-- Accessor for `node.children.values()`. -/
def TaxonomyNode.kids : TaxonomyNode → List TaxonomyNode
  | TaxonomyNode.node _ _ cs => forestList cs

/-- Total node count of a BFS queue. -/
def queueSize (q : List TaxonomyNode) : Nat :=
  (q.map nodeSize).sum

/-- The breadth-first flattening loop of `find_best_category`
(src/app/utils/taxonomy.py, lines 92-97): pop the queue front, record the
node's full path, push its children at the back.  The loop consumes one node
per step, so the total node count of the queue serves as fuel. -/
def flatten_bfs : Nat → List TaxonomyNode → List String
  | 0, _ => []
  | _, [] => []
  | fuel + 1, n :: rest => n.fullPath :: flatten_bfs fuel (rest ++ n.kids)

/-- `all_full_paths` as computed in `find_best_category`. -/
def flatten_paths (tree : List TaxonomyNode) : List String :=
  flatten_bfs (queueSize tree) tree

/-- One comparison step of the selection made by
`difflib.get_close_matches`: keep the candidate maximal under the
`(score, string)` tuple order its internal `nlargest` uses. -/
def close_step (sim : String → String → ℚ) (raw : String) :
    Option String → String → Option String := fun acc p =>
  match acc with
  | none => some p
  | some b =>
    if sim raw p > sim raw b ∨ (sim raw p = sim raw b ∧ b < p) then some p
    else some b

/-- The selection made by `difflib.get_close_matches(raw, paths, n=1,
cutoff=0.3)` (src/app/utils/taxonomy.py, line 99), parametric in the
similarity measure `sim` standing for `SequenceMatcher.ratio`: the best
candidate is returned only if its score reaches the cutoff. -/
def get_close_match (sim : String → String → ℚ) (raw : String)
    (paths : List String) : Option String :=
  let best := paths.foldl (close_step sim raw) none
  match best with
  | none => none
  | some b => if sim raw b ≥ 3 / 10 then some b else none

/-- Python's `round(x, 3)` on the scores at hand. -/
def round3 (q : ℚ) : ℚ :=
  ((round (q * 1000) : ℤ) : ℚ) / 1000

/-- `find_best_category` (src/app/utils/taxonomy.py, lines 83-105),
parametric in the similarity measure `sim` (= `SequenceMatcher.ratio`,
which always lies in `[0, 1]`): empty input short-circuits; otherwise the
best close match is taken, and its recomputed score is rounded to 3
decimals; with no match at the cutoff the result is
`("Uncategorized", 0.0)`. -/
def find_best_category (sim : String → String → ℚ) (raw_category : String)
    (tree : List TaxonomyNode) : String × ℚ :=
  if raw_category = "" then ("Uncategorized", 0)
  else
    let paths := flatten_paths tree
    match get_close_match sim raw_category paths with
    | none => ("Uncategorized", 0)
    | some m => (m, round3 (sim raw_category m))

/-! ### LLM-candidate validity gate (src/optimus_v3.py) -/

/-- Python's `str.strip()` with no argument: drop leading and trailing
whitespace (strings are handled as their code-point lists, mirroring
Python's `str`). -/
def py_strip (s : String) : String :=
  ⟨((s.data.dropWhile Char.isWhitespace).reverse.dropWhile
    Char.isWhitespace).reverse⟩

/-- Python's `str.lower()` on the characters at hand. -/
def py_lower (s : String) : String :=
  ⟨s.data.map Char.toLower⟩

/-- Whether the first list is an initial segment of the second. -/
def starts_list : List Char → List Char → Bool
  | [], _ => true
  | _ :: _, [] => false
  | c :: cs, d :: ds => c == d && starts_list cs ds

/-- Python's `str.startswith(pre)`. -/
def py_starts_with (s pre : String) : Bool :=
  starts_list pre.data s.data

/-- One character step of `str.split()`: whitespace closes the current
word, anything else extends it. -/
def split_step (acc : List (List Char) × List Char) (c : Char) :
    List (List Char) × List Char :=
  if c.isWhitespace then
    (if acc.2.isEmpty then acc.1 else acc.1 ++ [acc.2.reverse], [])
  else (acc.1, c :: acc.2)

/-- Python's `str.split()` with no separator: split on whitespace runs,
dropping empty pieces. -/
def py_split_ws (s : String) : List String :=
  let r := s.data.foldl split_step ([], [])
  (if r.2.isEmpty then r.1 else r.1 ++ [r.2.reverse]).map (fun l => ⟨l⟩)

/-- Python's `s[:n]` on the code points. -/
def py_take (s : String) (n : Nat) : String :=
  ⟨s.data.take n⟩

/-- The natural-language openings rejected by `is_valid_taxonomy`
(src/optimus_v3.py, line 325). -/
def nl_starts : List String :=
  ["i\x27m", "i am", "sure", "happy", "here"]

/-- `Optimus.is_valid_taxonomy` (src/optimus_v3.py, lines 318-331): empty
reply rejected; then, on the stripped candidate, more than 10
whitespace-separated tokens, a natural-language opening of the lower-cased
string, or a length below 3 or above 200 each reject; everything else is
accepted. -/
def is_valid_taxonomy (candidate : String) : Bool :=
  if candidate == "" then false
  else
    let c := py_strip candidate
    if (py_split_ws c).length > 10 then false
    else if nl_starts.any (fun p => py_starts_with (py_lower c) p) then false
    else if c.length < 3 || c.length > 200 then false
    else true

/-- Python's `a or b` for strings: `b` when `a` is `None` or empty. -/
def py_or (o : Option String) (d : String) : String :=
  match o with
  | some s => if s == "" then d else s
  | none => d

/-- `Optimus.normalize_product_type` (src/optimus_v3.py, lines 333-365),
after the LLM reply has been received: the candidate is the `or`-chain over
the reply's `category` / `normalized_category` / `product_type` keys; a
valid candidate is returned stripped; otherwise the product's own
`product_type` is returned when it passes the same gate, and as a last
resort `product_type or title[:80]`. -/
def normalize_product_type (reply_category reply_normalized reply_ptype :
    Option String) (product_type : Option String) (title : String) : String :=
  let candidate :=
    py_or reply_category (py_or reply_normalized (py_or reply_ptype ""))
  if is_valid_taxonomy candidate then py_strip candidate
  else
    let fb := py_or product_type ""
    if is_valid_taxonomy fb then (if fb == "" then "Miscellaneous" else fb)
    else py_or product_type (py_take title 80)

/-! ## Theorems -/

/-- Claim C1, evaluated on the code at the failing input: the pool's queue is
a plain FIFO `asyncio.Queue` (src/app/worker_pool.py line 109), so the
`(priority, task)` tuples are served in submission order and the priority
component is ignored.  Submitting task "A" at priority 0 and then task "B"
at priority -1 into a running pool with an empty queue dequeues "A" first,
although the claim requires the lower-priority "B" to be served first. -/
theorem C1_fifo_ignores_priority :
    (queue_get
      ((submit_task
        ((submit_task
          { running := true, task_queue := [], results := [], task_futures := [],
            total_tasks := 0, completed_tasks := 0, failed_tasks := 0 }
          "meta_optimization" ⟨"", none⟩ 0 "A" 0).1)
        "meta_optimization" ⟨"", none⟩ (-1) "B" 0).1.task_queue)).map
      (fun x => x.1.2.task_id) = some "A" := by
  decide

/-- Claim C3, evaluated on the code at the failing input: the cleanup pass of
`_result_processor` compares the wall-clock time against the stored
`execution_time`, which is the task's execution *duration*, not a
publication timestamp (`WorkerResult` stores no publication time at all).
A result that finished in 2 seconds and was published at wall-clock time
1000000 is evicted by the very next cleanup pass, far inside its claimed
one-hour TTL. -/
theorem C3_eviction_evicts_fresh_result :
    result_cleanup 1000000
      [("t1", { task_id := "t1", success := true, result := some "v",
                error := none, execution_time := 2 })] = [] := by
  have h : ((1000000 : ℚ) - 2 > 3600) := by norm_num
  simp [result_cleanup, h]

/-- Claim C10: `submit_task` on a pool that is not running fails with the
`RuntimeError` and returns the state unchanged — no future is created,
nothing is enqueued, and `total_tasks` is not incremented
(src/app/worker_pool.py, lines 136-151: the running check precedes every
mutation). -/
theorem C10_submit_not_running (s : PoolState) (task_type : String)
    (data : TaskData) (priority : Int) (fresh_id : String) (now : ℚ)
    (h : s.running = false) :
    (submit_task s task_type data priority fresh_id now).1 = s ∧
    (submit_task s task_type data priority fresh_id now).2 =
      Except.error "Worker pool is not running" := by
  simp [submit_task, h]

/-- A stopped pool state with some history, used as the concrete input of
the C10 witness. -/
def sStopped : PoolState :=
  { running := false, task_queue := [], results := [], task_futures := [],
    total_tasks := 5, completed_tasks := 4, failed_tasks := 1 }

/-- Witness for C10 at a concrete stopped pool. -/
theorem C10_submit_not_running_witness :
    (submit_task sStopped "meta_optimization" ⟨"", none⟩ 0 "id1" 0).1 =
      sStopped ∧
    (submit_task sStopped "meta_optimization" ⟨"", none⟩ 0 "id1" 0).2 =
      Except.error "Worker pool is not running" :=
  C10_submit_not_running sStopped "meta_optimization" ⟨"", none⟩ 0 "id1" 0 rfl

/-- Pool state of the C2 counterexample: task "t" has been submitted (its
future is pending) and its result is not yet published. -/
def sC2 : PoolState :=
  { running := true, task_queue := [], results := [],
    task_futures := [("t", FutureState.pending)],
    total_tasks := 1, completed_tasks := 0, failed_tasks := 0 }

/-- Claim C2 is false on the code: for a submitted task whose future the
caller is awaiting, a *failed* outcome makes `get_result` raise the task's
error (`_worker_loop` resolves the future with
`set_exception(Exception(result.error))`, lines 211-214) instead of
returning the failed `WorkerResult`; the call neither returns a Result nor
raises a timeout or unknown-task error, although no timeout expired and the
id was submitted. -/
theorem C2_counterexample :
    get_result sC2 "t" false (FutureResolution.failure "boom") =
      GetResultOutcome.taskError "boom" := by
  decide

/-- Claim C2 as amended: `get_result` returns the cached `WorkerResult` —
success or failure — whenever it is already in the results cache (and any
just-published result, failed ones included, is so retrievable); it raises
the unknown-task error exactly when the id is in neither the cache nor the
futures map; when it awaits a pending future, an expired timeout raises the
timeout error, a successful task's Result is returned, and a failed task's
error is re-raised (the failed Result itself is only ever obtained through
the cache). -/
theorem C2_amended (s : PoolState) (id : String) (timesOut : Bool)
    (ev : FutureResolution) :
    (∀ r, lookupStr s.results id = some r →
      get_result s id timesOut ev = GetResultOutcome.ok r) ∧
    (lookupStr s.results id = none → lookupStr s.task_futures id = none →
      get_result s id timesOut ev =
        GetResultOutcome.unknownTask ("Task " ++ id ++ " not found")) ∧
    (lookupStr s.results id = none →
      (∃ f, lookupStr s.task_futures id = some f) → timesOut = true →
      get_result s id timesOut ev = GetResultOutcome.timeoutErr) ∧
    (lookupStr s.results id = none →
      (∃ f, lookupStr s.task_futures id = some f) → timesOut = false →
      (∀ r, ev = FutureResolution.success r →
        get_result s id timesOut ev = GetResultOutcome.ok r) ∧
      (∀ e, ev = FutureResolution.failure e →
        get_result s id timesOut ev = GetResultOutcome.taskError e)) ∧
    (∀ r, get_result (publish_result s id r) id timesOut ev =
      GetResultOutcome.ok r) := by
  have hpub : ∀ r : WorkerResult,
      (publish_result s id r).results = (id, r) :: s.results := by
    intro r
    unfold publish_result
    cases hr : r.success <;> simp [hr] <;> split <;> rfl
  refine ⟨?_, ?_, ?_, ?_, ?_⟩
  · intro r hr
    simp [get_result, hr]
  · intro hr hf
    simp [get_result, hr, hf]
  · rintro hr ⟨f, hf⟩ ht
    simp [get_result, hr, hf, ht]
  · rintro hr ⟨f, hf⟩ ht
    constructor
    · rintro r rfl
      simp [get_result, hr, hf, ht]
    · rintro e rfl
      simp [get_result, hr, hf, ht]
  · intro r
    have : lookupStr (publish_result s id r).results id = some r := by
      rw [hpub]
      simp [lookupStr]
    simp [get_result, this]

/-- Concrete published result used by the C2 witness. -/
def rC2w : WorkerResult :=
  { task_id := "t", success := false, result := none,
    error := some "handler blew up", execution_time := 1 }

/-- Witness for the amended C2: on the concrete state `sC2`, an unknown id
raises the unknown-task error, and a just-published *failed* result is
returned from the cache. -/
theorem C2_amended_witness :
    get_result sC2 "x" false (FutureResolution.failure "boom") =
      GetResultOutcome.unknownTask ("Task " ++ "x" ++ " not found") ∧
    get_result (publish_result sC2 "t" rC2w) "t" false
      (FutureResolution.failure "boom") = GetResultOutcome.ok rC2w := by
  refine ⟨?_, ?_⟩
  · exact (C2_amended sC2 "x" false (FutureResolution.failure "boom")).2.1
      (by decide) (by decide)
  · exact (C2_amended sC2 "t" false
      (FutureResolution.failure "boom")).2.2.2.2 rC2w

/-- Invariant of the retry loop of `Worker.process_task`: starting at
`attempt` with `remaining` iterations left (`remaining + attempt =
max_retries + 1`), the handler is consulted between once and `remaining`
times, the sleeps are exactly `min(2^i, 30)` for the consecutive failed
non-final attempts, and if every attempt up to `max_retries` fails the loop
ends with the failed result carrying the last attempt's error. -/
theorem process_loop_spec (handler : Nat → Except String Payload)
    (max_retries : Nat) :
    ∀ remaining attempt, remaining + attempt = max_retries + 1 →
      1 ≤ remaining →
      1 ≤ (process_loop handler max_retries remaining attempt).handler_calls ∧
      (process_loop handler max_retries remaining attempt).handler_calls ≤
        remaining ∧
      (process_loop handler max_retries remaining attempt).sleeps =
        (List.range
          ((process_loop handler max_retries remaining attempt).handler_calls
            - 1)).map (fun i => min (2 ^ (attempt + i)) 30) ∧
      ((∀ i, attempt ≤ i → i ≤ max_retries → ∃ e,
          handler i = Except.error e) →
        ∃ e, handler max_retries = Except.error e ∧
          (process_loop handler max_retries remaining attempt).result =
            ProcessOutcome.failedTask e) := by
  intro remaining
  induction remaining with
  | zero => intro attempt _ h1; omega
  | succ k ih =>
    intro attempt hsum _
    have hatt : attempt ≤ max_retries := by omega
    cases hh : handler attempt with
    | ok v =>
      have hunfold : process_loop handler max_retries (k + 1) attempt =
          { result := ProcessOutcome.succeeded v, sleeps := [],
            handler_calls := 1 } := by
        simp [process_loop, hh]
      rw [hunfold]
      refine ⟨le_rfl, by dsimp only; omega, by simp, ?_⟩
      intro hall
      obtain ⟨e, he⟩ := hall attempt le_rfl hatt
      rw [hh] at he
      cases he
    | error e =>
      by_cases hlt : attempt < max_retries
      · have hk1 : 1 ≤ k := by omega
        have hksum : k + (attempt + 1) = max_retries + 1 := by omega
        obtain ⟨ih1, ih2, ih3, ih4⟩ := ih (attempt + 1) hksum hk1
        have hunfold : process_loop handler max_retries (k + 1) attempt =
            { result := (process_loop handler max_retries k (attempt + 1)).result,
              sleeps := min (2 ^ attempt) 30 ::
                (process_loop handler max_retries k (attempt + 1)).sleeps,
              handler_calls :=
                (process_loop handler max_retries k (attempt + 1)).handler_calls
                  + 1 } := by
          simp [process_loop, hh, hlt]
        rw [hunfold]
        refine ⟨by dsimp only; omega, by dsimp only; omega, ?_, ?_⟩
        · dsimp only
          obtain ⟨m, hm⟩ : ∃ m,
              (process_loop handler max_retries k (attempt + 1)).handler_calls
                = m + 1 :=
            ⟨(process_loop handler max_retries k (attempt + 1)).handler_calls
              - 1, by omega⟩
          rw [ih3, hm]
          simp only [Nat.add_sub_cancel]
          rw [List.range_succ_eq_map]
          simp only [List.map_cons, List.map_map]
          refine congrArg₂ List.cons (by simp) ?_
          refine List.map_congr_left ?_
          intro i _
          simp only [Function.comp_apply]
          congr 2
          omega
        · dsimp only
          intro hall
          exact ih4 (fun i hi1 hi2 => hall i (by omega) hi2)
      · have hattEq : attempt = max_retries := by omega
        have hunfold : process_loop handler max_retries (k + 1) attempt =
            { result := ProcessOutcome.failedTask e, sleeps := [],
              handler_calls := 1 } := by
          simp [process_loop, hh, hlt]
        rw [hunfold]
        refine ⟨le_rfl, by dsimp only; omega, by simp, fun _ => ⟨e, ?_, rfl⟩⟩
        rw [hattEq] at hh
        exact hh

/-- Claim C6: processing one task makes at most `max_retries + 1` handler
attempts (with `max_retries` read from the task's data, default 3); after
each failed attempt with more attempts remaining the worker sleeps exactly
`min(2^attempt, 30)` seconds before retrying; and when every attempt fails,
the published result is a failed result carrying the last attempt's error
message (src/app/worker_pool.py, lines 28-95). -/
theorem C6_retry_schedule (handler : Nat → Except String Payload)
    (task : WorkerTask) :
    (process_task handler task).handler_calls ≤ task_max_retries task + 1 ∧
    (process_task handler task).sleeps =
      (List.range ((process_task handler task).handler_calls - 1)).map
        (fun i => min (2 ^ i) 30) ∧
    ((∀ i, i ≤ task_max_retries task → ∃ e, handler i = Except.error e) →
      ∃ e, handler (task_max_retries task) = Except.error e ∧
        (process_task handler task).result = ProcessOutcome.failedTask e) := by
  obtain ⟨h1, h2, h3, h4⟩ := process_loop_spec handler (task_max_retries task)
    (task_max_retries task + 1) 0 (by omega) (by omega)
  refine ⟨h2, ?_, fun hall => h4 (fun i _ hi => hall i hi)⟩
  unfold process_task
  rw [h3]
  refine List.map_congr_left ?_
  intro i _
  simp

/-- Handler oracle of the C6 witness: every attempt raises, with the attempt
index as the message. -/
def handlerC6 : Nat → Except String Payload :=
  fun i => Except.error (toString i)

/-- Task of the C6 witness: no `_max_retries` override, so the default 3
applies. -/
def taskC6 : WorkerTask :=
  { task_id := "w1", task_type := "meta_optimization", data := ⟨"", none⟩,
    priority := 0, created_at := 0 }

/-- Witness for C6: with every attempt failing and the default retry count,
the published result is the failed result of attempt 3. -/
theorem C6_retry_schedule_witness :
    (∀ i, i ≤ task_max_retries taskC6 → ∃ e, handlerC6 i = Except.error e) ∧
    ∃ e, handlerC6 (task_max_retries taskC6) = Except.error e ∧
      (process_task handlerC6 taskC6).result = ProcessOutcome.failedTask e := by
  have hall : ∀ i, i ≤ task_max_retries taskC6 → ∃ e,
      handlerC6 i = Except.error e := fun i _ => ⟨toString i, rfl⟩
  exact ⟨hall, (C6_retry_schedule handlerC6 taskC6).2.2 hall⟩

/-- Contribution of one product outcome to the `processed` counter. -/
def processed_inc : ProductOutcome → Nat
  | ProductOutcome.succeeded _ => 1
  | _ => 0

/-- Contribution of one product outcome to the `failed` counter (a success
whose persistence write then raises is counted again as failed). -/
def failed_inc : ProductOutcome → Nat
  | ProductOutcome.succeeded ok => if ok then 0 else 1
  | ProductOutcome.failedTask _ => 1
  | ProductOutcome.timedOut => 1
  | ProductOutcome.missing => 0

/-- Final counters of the collection loop: sums of the per-outcome
increments. -/
theorem collect_loop_counts (os : List ProductOutcome) : ∀ c : Nat × Nat,
    (collect_loop c os).1.1 = c.1 + (os.map processed_inc).sum ∧
    (collect_loop c os).1.2 = c.2 + (os.map failed_inc).sum := by
  induction os with
  | nil => intro c; simp [collect_loop]
  | cons o os ih =>
    intro c
    cases o with
    | succeeded ok =>
      cases ok <;>
        simp [collect_loop, collect_step, processed_inc, failed_inc,
          (ih _).1, (ih _).2] <;> omega
    | failedTask e =>
      simp [collect_loop, collect_step, processed_inc, failed_inc,
        (ih _).1, (ih _).2]
      omega
    | timedOut =>
      simp [collect_loop, collect_step, processed_inc, failed_inc,
        (ih _).1, (ih _).2]
      omega
    | missing =>
      simp [collect_loop, collect_step, processed_inc, failed_inc,
        (ih _).1, (ih _).2]

/-- Every intermediate counter value of the collection loop keeps
`processed + failed` bounded by the number of products processed so far, as
long as no success-path persistence write fails. -/
theorem collect_loop_states (os : List ProductOutcome) : ∀ c : Nat × Nat,
    (∀ o ∈ os, o ≠ ProductOutcome.succeeded false) →
    ∀ s ∈ (collect_loop c os).2, s.1 + s.2 ≤ c.1 + c.2 + os.length := by
  induction os with
  | nil => intro c _ s hs; simp [collect_loop] at hs
  | cons o os ih =>
    intro c hok s hs
    have hok' : ∀ o' ∈ os, o' ≠ ProductOutcome.succeeded false :=
      fun o' ho' => hok o' (List.mem_cons_of_mem _ ho')
    cases o with
    | succeeded ok =>
      cases ok with
      | true =>
        simp only [collect_loop, collect_step, List.cons_append,
          List.nil_append, List.mem_cons] at hs
        rcases hs with hs | hs
        · subst hs; simp; omega
        · have := ih (c.1 + 1, c.2) hok' s hs
          simp at this ⊢
          omega
      | false => exact absurd rfl (hok _ (List.mem_cons_self _ _))
    | failedTask e =>
      simp only [collect_loop, collect_step, List.cons_append,
        List.nil_append, List.mem_cons] at hs
      rcases hs with hs | hs
      · subst hs; simp; omega
      · have := ih (c.1, c.2 + 1) hok' s hs
        simp at this ⊢
        omega
    | timedOut =>
      simp only [collect_loop, collect_step, List.cons_append,
        List.nil_append, List.mem_cons] at hs
      rcases hs with hs | hs
      · subst hs; simp; omega
      · have := ih (c.1, c.2 + 1) hok' s hs
        simp at this ⊢
        omega
    | missing =>
      simp only [collect_loop, collect_step, List.nil_append] at hs
      have := ih c hok' s hs
      simp only [List.length_cons] at *
      omega

/-- `outcome_missing` on each constructor. -/
theorem outcome_missing_missing :
    outcome_missing ProductOutcome.missing = true := rfl

/-- `outcome_missing` on a success. -/
theorem outcome_missing_succeeded (ok : Bool) :
    outcome_missing (ProductOutcome.succeeded ok) = false := rfl

/-- `outcome_missing` on a failure. -/
theorem outcome_missing_failedTask (e : String) :
    outcome_missing (ProductOutcome.failedTask e) = false := rfl

/-- `outcome_missing` on a timeout. -/
theorem outcome_missing_timedOut :
    outcome_missing ProductOutcome.timedOut = false := rfl

/-- Skipped (missing) products contribute nothing to either counter, so the
sums over the submitted products equal the sums over all outcomes. -/
theorem filter_missing_sums (os : List ProductOutcome) :
    (((os.filter (fun o => !(outcome_missing o))).map processed_inc).sum =
      (os.map processed_inc).sum) ∧
    (((os.filter (fun o => !(outcome_missing o))).map failed_inc).sum =
      (os.map failed_inc).sum) := by
  induction os with
  | nil => simp
  | cons o os ih =>
    cases o <;>
      simp [List.filter_cons, outcome_missing_missing,
        outcome_missing_succeeded, outcome_missing_failedTask,
        outcome_missing_timedOut, processed_inc, failed_inc, ih.1, ih.2]

/-- Claim C4 is false on the code: when a product's worker result succeeds
(`processed += 1`, src/app/pipeline.py line 512) and one of the subsequent
awaited persistence calls raises, the generic handler at line 605 also runs
`failed += 1`, so a single-product batch finalizes with
`processed + failed = 2 > 1 = total`. -/
theorem C4_counterexample :
    (batch_process_products [ProductOutcome.succeeded false]).1.processed +
      (batch_process_products [ProductOutcome.succeeded false]).1.failed = 2 ∧
    (batch_process_products [ProductOutcome.succeeded false]).1.total = 1 ∧
    ¬ ((batch_process_products [ProductOutcome.succeeded false]).1.processed +
        (batch_process_products [ProductOutcome.succeeded false]).1.failed ≤
        (batch_process_products [ProductOutcome.succeeded false]).1.total) := by
  decide

/-- Claim C4 as amended: provided no success-path persistence write fails,
`processed + failed ≤ total` holds at every point of the run; if
additionally every product id resolves to a product record (none is skipped
at submission), then `processed + failed = total` at finalization. -/
theorem C4_amended (outcomes : List ProductOutcome)
    (hper : ∀ o ∈ outcomes, o ≠ ProductOutcome.succeeded false) :
    (∀ s ∈ (batch_process_products outcomes).2,
      s.1 + s.2 ≤ (batch_process_products outcomes).1.total) ∧
    ((∀ o ∈ outcomes, o ≠ ProductOutcome.missing) →
      (batch_process_products outcomes).1.processed +
        (batch_process_products outcomes).1.failed =
        (batch_process_products outcomes).1.total) := by
  constructor
  · intro s hs
    simp only [batch_process_products, List.mem_cons] at hs
    rcases hs with hs | hs
    · subst hs; simp
    · have hsub : ∀ o ∈ outcomes.filter (fun o => !(outcome_missing o)),
          o ≠ ProductOutcome.succeeded false :=
        fun o ho => hper o (List.mem_of_mem_filter ho)
      have hb := collect_loop_states _ (0, 0) hsub s hs
      have hlen : (outcomes.filter (fun o => !(outcome_missing o))).length ≤
          outcomes.length := List.length_filter_le _ _
      simp only [batch_process_products]
      omega
  · intro hnm
    have hfil : outcomes.filter (fun o => !(outcome_missing o)) = outcomes := by
      refine List.filter_eq_self.mpr ?_
      intro o ho
      have := hnm o ho
      cases o <;> simp [outcome_missing] at this ⊢
    have hcnt := collect_loop_counts
      (outcomes.filter (fun o => !(outcome_missing o))) (0, 0)
    have hsum : (outcomes.map processed_inc).sum +
        (outcomes.map failed_inc).sum = outcomes.length := by
      clear hcnt hfil
      induction outcomes with
      | nil => simp
      | cons o os ih =>
        have ho1 := hper o (List.mem_cons_self _ _)
        have ho2 := hnm o (List.mem_cons_self _ _)
        have ih' := ih (fun o' h' => hper o' (List.mem_cons_of_mem _ h'))
          (fun o' h' => hnm o' (List.mem_cons_of_mem _ h'))
        cases o with
        | succeeded ok =>
          cases ok with
          | true => simp [processed_inc, failed_inc]; omega
          | false => exact absurd rfl ho1
        | failedTask e => simp [processed_inc, failed_inc]; omega
        | timedOut => simp [processed_inc, failed_inc]; omega
        | missing => exact absurd rfl ho2
    simp only [batch_process_products, hfil]
    rw [(collect_loop_counts outcomes (0, 0)).1,
      (collect_loop_counts outcomes (0, 0)).2]
    omega

/-- Concrete outcome list of the C4 witness: one success, one failure, one
timeout, all product records found and no persistence failure. -/
def outcomesC4 : List ProductOutcome :=
  [ProductOutcome.succeeded true, ProductOutcome.failedTask "llm error",
   ProductOutcome.timedOut]

/-- Witness for the amended C4. -/
theorem C4_amended_witness :
    (∀ o ∈ outcomesC4, o ≠ ProductOutcome.succeeded false) ∧
    (batch_process_products outcomesC4).1.processed +
      (batch_process_products outcomesC4).1.failed =
      (batch_process_products outcomesC4).1.total := by
  have h := C4_amended outcomesC4 (by decide)
  exact ⟨by decide, h.2 (by decide)⟩

/-- Claim C5 is false on the code: a product id whose record is missing is
skipped at submission (src/app/pipeline.py line 480) and never counted, so
a single-product batch over a missing product finalizes as COMPLETED
(`failed == 0`) even though no product succeeded. -/
theorem C5_counterexample :
    (batch_process_products [ProductOutcome.missing]).1.status = "COMPLETED" ∧
    (batch_process_products [ProductOutcome.missing]).1.processed = 0 ∧
    (batch_process_products [ProductOutcome.missing]).1.total = 1 := by
  decide

/-- Claim C5 as amended: the run is finalized COMPLETED iff the failed
counter is zero, which holds iff every product either succeeded (with its
persistence writes succeeding) or was skipped because its record was
missing; whenever at least one product failed or timed out the run is
finalized FAILED; and the batch always reaches finalization with one of the
two statuses rather than raising on a per-product failure. -/
theorem C5_amended (outcomes : List ProductOutcome) :
    ((batch_process_products outcomes).1.status = "COMPLETED" ↔
      (batch_process_products outcomes).1.failed = 0) ∧
    ((batch_process_products outcomes).1.failed = 0 ↔
      ∀ o ∈ outcomes, o = ProductOutcome.missing ∨
        o = ProductOutcome.succeeded true) ∧
    ((∃ o ∈ outcomes, (∃ e, o = ProductOutcome.failedTask e) ∨
        o = ProductOutcome.timedOut) →
      (batch_process_products outcomes).1.status = "FAILED") ∧
    ((batch_process_products outcomes).1.status = "COMPLETED" ∨
      (batch_process_products outcomes).1.status = "FAILED") := by
  have hfailed : (batch_process_products outcomes).1.failed =
      (outcomes.map failed_inc).sum := by
    simp only [batch_process_products]
    rw [(collect_loop_counts _ (0, 0)).2, (filter_missing_sums outcomes).2]
    simp
  have hiff : (batch_process_products outcomes).1.failed = 0 ↔
      ∀ o ∈ outcomes, o = ProductOutcome.missing ∨
        o = ProductOutcome.succeeded true := by
    rw [hfailed, List.sum_eq_zero_iff]
    constructor
    · intro h o ho
      have := h (failed_inc o) (List.mem_map_of_mem _ ho)
      cases o with
      | succeeded ok =>
        cases ok with
        | true => exact Or.inr rfl
        | false => simp [failed_inc] at this
      | failedTask e => simp [failed_inc] at this
      | timedOut => simp [failed_inc] at this
      | missing => exact Or.inl rfl
    · intro h x hx
      obtain ⟨o, ho, rfl⟩ := List.mem_map.mp hx
      rcases h o ho with rfl | rfl <;> simp [failed_inc]
  have hstat : (batch_process_products outcomes).1.status =
      (if (batch_process_products outcomes).1.failed = 0 then "COMPLETED"
       else "FAILED") := by
    simp only [batch_process_products]
  refine ⟨?_, hiff, ?_, ?_⟩
  · rw [hstat]
    split <;> rename_i hsplit
    · simp [hsplit]
    · constructor
      · intro hco; exact absurd hco (by decide)
      · intro hf; exact absurd hf hsplit
  · rintro ⟨o, ho, hbad⟩
    rw [hstat]
    have : ¬ (batch_process_products outcomes).1.failed = 0 := by
      rw [hiff]
      intro hall
      rcases hall o ho with rfl | rfl
      · rcases hbad with ⟨e, he⟩ | ht
        · cases he
        · cases ht
      · rcases hbad with ⟨e, he⟩ | ht
        · cases he
        · cases ht
    simp [this]
  · rw [hstat]
    split
    · exact Or.inl rfl
    · exact Or.inr rfl

/-- Concrete outcome list of the C5 witness: one success and one timeout. -/
def outcomesC5 : List ProductOutcome :=
  [ProductOutcome.succeeded true, ProductOutcome.timedOut]

/-- Witness for the amended C5: a batch containing a timeout is finalized
FAILED. -/
theorem C5_amended_witness :
    (∃ o ∈ outcomesC5, (∃ e, o = ProductOutcome.failedTask e) ∨
      o = ProductOutcome.timedOut) ∧
    (batch_process_products outcomesC5).1.status = "FAILED" := by
  have hex : ∃ o ∈ outcomesC5, (∃ e, o = ProductOutcome.failedTask e) ∨
      o = ProductOutcome.timedOut :=
    ⟨ProductOutcome.timedOut, by decide, Or.inr rfl⟩
  exact ⟨hex, (C5_amended outcomesC5).2.2.1 hex⟩

/-- Each branch of `_rule_based_fallback` carries `fallback_used: true`. -/
theorem rule_based_fallback_marker (t : TaskType) :
    lookupStr (rule_based_fallback t) "fallback_used" = some (JVal.b true) := by
  cases t <;> rfl

/-- Invariant of the `_call_model_with_fallback` loop: whatever the model
replies and whatever the fallback order, the loop returns either a
non-empty reply that validates for the task type, or exactly the rule-based
fallback map of that task type. -/
theorem call_model_loop_spec (calls : Nat → String → Except String Reply)
    (fallback_order : List String) (t : TaskType) :
    ∀ (remaining attempt : Nat) (model : String),
      (validate_response
          (call_model_loop calls fallback_order t remaining attempt model) t
            = true ∧
        (call_model_loop calls fallback_order t remaining attempt model).isEmpty
          = false) ∨
      call_model_loop calls fallback_order t remaining attempt model =
        rule_based_fallback t := by
  intro remaining
  induction remaining with
  | zero => intro attempt model; exact Or.inr rfl
  | succ k ih =>
    intro attempt model
    unfold call_model_loop
    cases hc : calls attempt model with
    | ok r =>
      by_cases hv : ((!r.isEmpty) && validate_response r t) = true
      · simp only [hv, if_true]
        left
        have h1 := (Bool.and_eq_true _ _).mp hv
        exact ⟨h1.2, by simpa using h1.1⟩
      · simp only [hv, if_false, Bool.false_eq_true]
        cases hn : next_model fallback_order model with
        | some m => simpa using ih (attempt + 1) m
        | none => exact Or.inr rfl
    | error e =>
      cases hn : next_model fallback_order model with
      | some m => simpa using ih (attempt + 1) m
      | none => exact Or.inr rfl

/-- Claim C7: for every product payload (the rendered prompt), task type,
model-reply environment and fallback order, `_call_model_with_fallback`
returns either a non-empty reply map that satisfies `_validate_response`
for the task type, or the deterministic rule-based fallback map for the
task type, which carries the `fallback_used: true` marker; in every case a
map is returned normally (the function is total over the modelled
environment) and never signaled as an error
(src/app/pipeline.py, lines 186-220 and 333-376). -/
theorem C7_executor_contract (calls : Nat → String → Except String Reply)
    (fallback_order : List String) (model : String) (t : TaskType)
    (max_retries : Nat) :
    (validate_response
        (call_model_with_fallback calls fallback_order model t max_retries) t
          = true ∧
      (call_model_with_fallback calls fallback_order model t
        max_retries).isEmpty = false) ∨
    (call_model_with_fallback calls fallback_order model t max_retries =
        rule_based_fallback t ∧
      lookupStr
        (call_model_with_fallback calls fallback_order model t max_retries)
        "fallback_used" = some (JVal.b true)) := by
  rcases call_model_loop_spec calls fallback_order t max_retries 0 model with
    h | h
  · exact Or.inl h
  · refine Or.inr ⟨h, ?_⟩
    unfold call_model_with_fallback
    rw [h]
    exact rule_based_fallback_marker t

/-- The fold of `close_step` starting from a candidate returns a candidate
from the initial one or the list, with a maximal score over all of them. -/
theorem close_fold_spec (sim : String → String → ℚ) (raw : String) :
    ∀ (paths : List String) (b : String),
      ∃ b', paths.foldl (close_step sim raw) (some b) = some b' ∧
        (b' = b ∨ b' ∈ paths) ∧ sim raw b ≤ sim raw b' ∧
        ∀ q ∈ paths, sim raw q ≤ sim raw b' := by
  intro paths
  induction paths with
  | nil =>
    intro b
    exact ⟨b, rfl, Or.inl rfl, le_refl _, by simp⟩
  | cons p ps ih =>
    intro b
    simp only [List.foldl_cons]
    have hstep : close_step sim raw (some b) p =
        some (if sim raw p > sim raw b ∨ (sim raw p = sim raw b ∧ b < p)
          then p else b) := by
      rw [apply_ite Option.some]
      rfl
    rw [hstep]
    by_cases hc : sim raw p > sim raw b ∨ (sim raw p = sim raw b ∧ b < p)
    · rw [if_pos hc]
      obtain ⟨b', h1, h2, h3, h4⟩ := ih p
      have hbp : sim raw b ≤ sim raw p := by
        rcases hc with h | ⟨h, _⟩
        · exact le_of_lt h
        · exact le_of_eq h.symm
      refine ⟨b', h1, ?_, le_trans hbp h3, ?_⟩
      · rcases h2 with rfl | h2
        · exact Or.inr (List.mem_cons_self _ _)
        · exact Or.inr (List.mem_cons_of_mem _ h2)
      · intro q hq
        rcases List.mem_cons.mp hq with rfl | hq
        · exact h3
        · exact h4 q hq
    · rw [if_neg hc]
      obtain ⟨b', h1, h2, h3, h4⟩ := ih b
      refine ⟨b', h1, ?_, h3, ?_⟩
      · rcases h2 with rfl | h2
        · exact Or.inl rfl
        · exact Or.inr (List.mem_cons_of_mem _ h2)
      · intro q hq
        rcases List.mem_cons.mp hq with rfl | hq
        · have hnp : ¬ sim raw b < sim raw q := fun h => hc (Or.inl h)
          exact le_trans (le_of_not_lt hnp) h3
        · exact h4 q hq

/-- Behaviour of the modelled `get_close_matches` call: no match when every
score is below the cutoff; a best-scoring member of the list when some
score reaches it. -/
theorem get_close_match_spec (sim : String → String → ℚ) (raw : String)
    (paths : List String) :
    ((∀ p ∈ paths, sim raw p < 3 / 10) →
      get_close_match sim raw paths = none) ∧
    (∀ p0 ∈ paths, 3 / 10 ≤ sim raw p0 →
      ∃ m, get_close_match sim raw paths = some m ∧ m ∈ paths ∧
        ∀ q ∈ paths, sim raw q ≤ sim raw m) := by
  cases paths with
  | nil =>
    refine ⟨fun _ => rfl, fun p0 h => absurd h (by simp)⟩
  | cons p ps =>
    obtain ⟨b', h1, h2, h3, h4⟩ := close_fold_spec sim raw ps p
    have hfold : (p :: ps).foldl (close_step sim raw) none = some b' := by
      simp only [List.foldl_cons]
      rw [show close_step sim raw none p = some p from rfl]
      exact h1
    have hmem : b' ∈ p :: ps := by
      rcases h2 with rfl | h2
      · exact List.mem_cons_self _ _
      · exact List.mem_cons_of_mem _ h2
    have hmax : ∀ q ∈ p :: ps, sim raw q ≤ sim raw b' := by
      intro q hq
      rcases List.mem_cons.mp hq with rfl | hq
      · exact h3
      · exact h4 q hq
    constructor
    · intro hall
      simp only [get_close_match, hfold]
      rw [if_neg (not_le.mpr (hall b' hmem))]
    · intro p0 hp0 hcut
      have hge : 3 / 10 ≤ sim raw b' := le_trans hcut (hmax p0 hp0)
      refine ⟨b', ?_, hmem, hmax⟩
      simp only [get_close_match, hfold]
      rw [if_pos hge]

/-- `round(·, 3)` keeps scores inside `[0, 1]`. -/
theorem round3_bounds (q : ℚ) (h0 : 0 ≤ q) (h1 : q ≤ 1) :
    0 ≤ round3 q ∧ round3 q ≤ 1 := by
  have hm : ∀ a b : ℚ, a ≤ b → round a ≤ round b := by
    intro a b hab
    rw [round_eq, round_eq]
    exact Int.floor_le_floor (by linarith)
  have l0 : (0 : ℤ) ≤ round (q * 1000) := by
    have h := hm 0 (q * 1000) (by nlinarith)
    rwa [round_zero] at h
  have l1 : round (q * 1000) ≤ 1000 := by
    have h := hm (q * 1000) 1000 (by nlinarith)
    have e : round ((1000 : ℚ)) = 1000 := by
      norm_num
    rwa [e] at h
  unfold round3
  constructor
  · apply div_nonneg _ (by norm_num)
    exact_mod_cast l0
  · rw [div_le_one (by norm_num)]
    exact_mod_cast l1

/-- Claim C8: for every raw category string and taxonomy tree, with the
similarity measure valued in `[0, 1]` (as `SequenceMatcher.ratio` is), the
matcher returns `("Uncategorized", 0.0)` whenever the best similarity over
all flattened taxonomy paths is below the cutoff 0.30; and otherwise (for a
non-empty raw string) it returns a best-scoring full path together with its
score rounded to 3 decimals, a value in `[0, 1]`
(src/app/utils/taxonomy.py, lines 83-105). -/
theorem C8_matcher (sim : String → String → ℚ) (raw : String)
    (tree : List TaxonomyNode)
    (hb : ∀ p, 0 ≤ sim raw p ∧ sim raw p ≤ 1)
    (hempty : raw = "" → ∀ p, sim raw p = 0) :
    ((∀ p ∈ flatten_paths tree, sim raw p < 3 / 10) →
      find_best_category sim raw tree = ("Uncategorized", 0)) ∧
    (∀ p0 ∈ flatten_paths tree, 3 / 10 ≤ sim raw p0 →
      (find_best_category sim raw tree).1 ∈ flatten_paths tree ∧
      (∀ q ∈ flatten_paths tree,
        sim raw q ≤ sim raw (find_best_category sim raw tree).1) ∧
      (find_best_category sim raw tree).2 =
        round3 (sim raw (find_best_category sim raw tree).1) ∧
      0 ≤ (find_best_category sim raw tree).2 ∧
      (find_best_category sim raw tree).2 ≤ 1) := by
  obtain ⟨hnone, hsome⟩ := get_close_match_spec sim raw (flatten_paths tree)
  constructor
  · intro hall
    by_cases hraw : raw = ""
    · simp [find_best_category, hraw]
    · simp only [find_best_category, if_neg hraw]
      rw [hnone hall]
  · intro p0 hp0 hcut
    by_cases hraw : raw = ""
    · exfalso
      rw [hempty hraw p0] at hcut
      norm_num at hcut
    · obtain ⟨m, hm, hmem, hmax⟩ := hsome p0 hp0 hcut
      have hres : find_best_category sim raw tree =
          (m, round3 (sim raw m)) := by
        simp only [find_best_category, if_neg hraw]
        rw [hm]
      rw [hres]
      obtain ⟨hb0, hb1⟩ := hb m
      obtain ⟨hr0, hr1⟩ := round3_bounds (sim raw m) hb0 hb1
      exact ⟨hmem, hmax, rfl, hr0, hr1⟩

/-- Taxonomy tree of the C8 witness: one root "Home" with one child
"Home > Lighting". -/
def treeC8 : List TaxonomyNode :=
  [TaxonomyNode.node "Home" "Home"
    (TaxonomyForest.push
      (TaxonomyNode.node "Lighting" "Home > Lighting" TaxonomyForest.leaf)
      TaxonomyForest.leaf)]

/-- Similarity oracle of the C8 witness, valued in `[0, 1]` and null on the
empty string, like `SequenceMatcher.ratio`. -/
def simC8 : String → String → ℚ := fun r p =>
  if r = "home lighting" ∧ p = "Home > Lighting" then 1 else 0

/-- Witness for C8 on concrete inputs: the child path is a flattened path
that reaches the cutoff, so the matcher returns a best-scoring path and the
rounded score. -/
theorem C8_matcher_witness :
    "Home > Lighting" ∈ flatten_paths treeC8 ∧
    3 / 10 ≤ simC8 "home lighting" "Home > Lighting" ∧
    (find_best_category simC8 "home lighting" treeC8).1 ∈
      flatten_paths treeC8 ∧
    (find_best_category simC8 "home lighting" treeC8).2 =
      round3 (simC8 "home lighting"
        (find_best_category simC8 "home lighting" treeC8).1) := by
  have hb : ∀ p, 0 ≤ simC8 "home lighting" p ∧ simC8 "home lighting" p ≤ 1 := by
    intro p
    unfold simC8
    split <;> norm_num
  have hempty : ("home lighting" : String) = "" →
      ∀ p, simC8 "home lighting" p = 0 := by
    intro h
    exact absurd h (by decide)
  have hmem : "Home > Lighting" ∈ flatten_paths treeC8 := by decide
  have hcut : (3 / 10 : ℚ) ≤ simC8 "home lighting" "Home > Lighting" := by
    rw [show simC8 "home lighting" "Home > Lighting" = 1 from
      if_pos ⟨rfl, rfl⟩]
    norm_num
  have h := (C8_matcher simC8 "home lighting" treeC8 hb hempty).2
    "Home > Lighting" hmem hcut
  exact ⟨hmem, hcut, h.1, h.2.2.1⟩

/-- Taxonomy tree of the C9 counterexample. -/
def treeC9 : List TaxonomyNode :=
  [TaxonomyNode.node "Home" "Home"
    (TaxonomyForest.push
      (TaxonomyNode.node "Lighting" "Home > Lighting" TaxonomyForest.leaf)
      TaxonomyForest.leaf)]

/-- Similarity oracle of the C9 counterexample. -/
def simC9 : String → String → ℚ := fun _ p =>
  if p = "Home > Lighting" then 1 else 0

/-- Claim C9 is false on the code: the only code path that rejects an
LLM-proposed candidate (`normalize_product_type`, src/optimus_v3.py lines
333-365) never applies the taxonomy matcher — on rejection it returns the
product's raw `product_type` string verbatim.  Concretely: the candidate is
rejected, the function returns "home lighting" unchanged, while the matcher
applied to that original category string returns the taxonomy path
"Home > Lighting", a different string. -/
theorem C9_counterexample :
    is_valid_taxonomy "I\x27m happy to help! Here is the category..." =
      false ∧
    normalize_product_type
      (some "I\x27m happy to help! Here is the category...") none none
      (some "home lighting") "Floor Lamp" = "home lighting" ∧
    (find_best_category simC9 "home lighting" treeC9).1 = "Home > Lighting" ∧
    ("home lighting" : String) ≠ "Home > Lighting" := by
  refine ⟨by decide, by decide, ?_, by decide⟩
  have hpaths : flatten_paths treeC9 = ["Home", "Home > Lighting"] := by
    decide
  obtain ⟨m, hm, hmem, hmax⟩ :=
    (get_close_match_spec simC9 "home lighting" (flatten_paths treeC9)).2
      "Home > Lighting" (by rw [hpaths]; simp) (by norm_num [simC9])
  have hfb : find_best_category simC9 "home lighting" treeC9 =
      (m, round3 (simC9 "home lighting" m)) := by
    simp only [find_best_category,
      if_neg (by decide : ¬ ("home lighting" : String) = "")]
    rw [hm]
  have h1 := hmax "Home > Lighting" (by rw [hpaths]; simp)
  rw [hpaths] at hmem
  rcases List.mem_cons.mp hmem with rfl | hmem2
  · exfalso
    simp only [simC9] at h1
    rw [if_neg (by decide : ¬ ("Home" : String) = "Home > Lighting")] at h1
    norm_num at h1
  · have hm2 : m = "Home > Lighting" := by simpa using hmem2
    subst hm2
    rw [hfb]

/-- Claim C9 as amended: a candidate is rejected exactly when its stripped
form has more than 10 whitespace-separated tokens, or length below 3 or
above 200, or its lower-cased form begins with one of the natural-language
openings; and when the candidate is rejected, `normalize_product_type`
falls back to the product's own `product_type` verbatim (or, when that
fails the same gate, to `product_type or title[:80]`) — the taxonomy
matcher is not applied. -/
theorem C9_amended (candidate : String) :
    (is_valid_taxonomy candidate = false ↔
      ((py_split_ws (py_strip candidate)).length > 10 ∨
        (py_strip candidate).length < 3 ∨ (py_strip candidate).length > 200 ∨
        (∃ p ∈ nl_starts,
          py_starts_with (py_lower (py_strip candidate)) p = true))) ∧
    (∀ rc rn rp pt title,
      is_valid_taxonomy (py_or rc (py_or rn (py_or rp ""))) = false →
      normalize_product_type rc rn rp pt title =
        (if is_valid_taxonomy (py_or pt "") then
          (if py_or pt "" == "" then "Miscellaneous" else py_or pt "")
        else py_or pt (py_take title 80))) := by
  constructor
  · by_cases hc : candidate = ""
    · subst hc
      decide
    · simp only [is_valid_taxonomy, beq_iff_eq]
      rw [if_neg hc]
      split_ifs with h1 h2 h3
      · exact iff_of_true rfl (Or.inl h1)
      · refine iff_of_true rfl (Or.inr (Or.inr (Or.inr ?_)))
        simpa [List.any_eq_true] using h2
      · refine iff_of_true rfl ?_
        rcases (by simpa using h3 :
            (py_strip candidate).length < 3 ∨
              (py_strip candidate).length > 200) with h | h
        · exact Or.inr (Or.inl h)
        · exact Or.inr (Or.inr (Or.inl h))
      · refine iff_of_false (by simp) ?_
        have h3' : ¬ ((py_strip candidate).length < 3 ∨
            (py_strip candidate).length > 200) := by simpa using h3
        have h2' : ¬ ∃ p ∈ nl_starts,
            py_starts_with (py_lower (py_strip candidate)) p = true := by
          simpa [List.any_eq_true] using h2
        rintro (h | h | h | h)
        · exact h1 h
        · exact h3' (Or.inl h)
        · exact h3' (Or.inr h)
        · exact h2' h
  · intro rc rn rp pt title h
    simp only [normalize_product_type]
    rw [if_neg (by simp [h])]

/-- Witness for the amended C9 at concrete inputs: the candidate
"sure, here you go" is rejected by the gate, and the function returns the
product's own type "Apparel" verbatim. -/
theorem C9_amended_witness :
    is_valid_taxonomy "sure, here you go" = false ∧
    normalize_product_type (some "sure, here you go") none none
      (some "Apparel") "Tee" = "Apparel" := by
  have h := C9_amended "sure, here you go"
  refine ⟨?_, ?_⟩
  · exact h.1.mpr (Or.inr (Or.inr (Or.inr ⟨"sure", by decide, by decide⟩)))
  · have h2 := h.2 (some "sure, here you go") none none (some "Apparel") "Tee"
      (by decide)
    rw [h2]
    decide

end XCMCP
